import Mathlib

/-!
Verification development for the leger-rs Substrate light-client library.

The definitions below are a shallow embedding of the Rust sources:
machine bytes are modelled as `Nat` values (each byte reduced `% 256`
exactly where the source truncates), byte buffers as `List Nat` holding
the bytes actually written, and fallible or panicking code as `Option`.
Each definition carries a comment naming the source item it embeds.
-/

/-- Little-endian byte decomposition: the `w` bytes of `n` in LE order,
mirroring Rust `to_le_bytes` on a `w`-byte unsigned integer. -/
def leBytes (w n : Nat) : List Nat :=
  (List.range w).map fun i => n / 256 ^ i % 256

/-- Little-endian reassembly of a byte list (used to model the
`mem::transmute` of a little-endian byte buffer into integer fields). -/
def leDecode (l : List Nat) : Nat :=
  l.foldr (fun b acc => b + 256 * acc) 0

/-- Number of trailing zero bytes of a little-endian byte list, mirroring
`ba.iter().rev().take_while(|&&x| x == 0).count()` in `scale/mod.rs`. -/
def trailingZeroCount (l : List Nat) : Nat :=
  (l.reverse.takeWhile fun b => b == 0).length

/-- Big-integer branch of `impl Compact for u128` (`src/scale/mod.rs`
lines 42-56): drop trailing zero bytes of the 16 LE bytes (`compact_size`
significant bytes), emit the prefix byte `3 + ((compact_size - 4) << 2)`
followed by the significant bytes.  In the program this branch is only
reached with `n ≥ 2^30 - 1`, where `compact_size ≥ 4`. -/
def scale_compact_u128_big (n : Nat) : List Nat :=
  let ba := leBytes 16 n
  let compact_size := 16 - trailingZeroCount ba
  (3 + (compact_size - 4) * 4 % 256) :: ba.take compact_size

/-- `impl Compact for u32` in `src/scale/mod.rs` lines 7-34.  The final
`else` branch casts to `u128` and calls the `u128` impl; since `n ≥
2^30 - 1` holds there, that call takes the big-integer branch, which is
inlined here to avoid mutual recursion. -/
def scale_compact_u32 (n : Nat) : List Nat :=
  if n < 64 then
    [n * 4 % 256]
  else if n < 2 ^ 14 - 1 then
    leBytes 2 ((n * 4 + 1) % 2 ^ 16)
  else if n < 2 ^ 30 - 1 then
    leBytes 4 ((n * 4 + 2) % 2 ^ 32)
  else
    scale_compact_u128_big n

/-- `impl Compact for u128` in `src/scale/mod.rs` lines 36-58: values
below `2^30 - 1` are cast to `u32` and delegated to the `u32` impl,
larger values use the big-integer mode. -/
def scale_compact_u128 (n : Nat) : List Nat :=
  if n < 2 ^ 30 - 1 then scale_compact_u32 n
  else scale_compact_u128_big n

/-- `ExtrinsicTransferCall` from `src/calls/transfer.rs` (the identical
struct also appears in `src/extrinsic/mod.rs`).  `dest_account` is the
32-byte destination key. -/
structure ExtrinsicTransferCall where
  module_idx : Nat
  call_idx : Nat
  is_address : Nat
  dest_account : List Nat
  amount : Nat

/-- `ExtrinsicTransferCall::new` (`src/calls/transfer.rs` lines 13-25):
module 5 (balances), call 0, `is_address` field set to `0xFF`. -/
def ExtrinsicTransferCall.new (dest_account : List Nat) (amount : Nat) :
    ExtrinsicTransferCall :=
  { module_idx := 5, call_idx := 0, is_address := 0xFF, dest_account, amount }

/-- `impl Call for ExtrinsicTransferCall`, `encode` (`src/calls/transfer.rs`
lines 28-42): writes `module_idx`, `call_idx`, then the destination key,
then the SCALE-compacted amount.  The write `payload[2] = 0xff` of the
`is_address` discriminant is commented out in the source, so no
discriminant byte appears between `call_idx` and the key.  The `usize`
returned by the Rust function equals the length of this list whenever the
output buffer is large enough. -/
def ExtrinsicTransferCall.encode (c : ExtrinsicTransferCall) : List Nat :=
  c.module_idx :: c.call_idx :: (c.dest_account ++ scale_compact_u128 c.amount)

/-- `ExtrinsicPayload` from `src/extrinsic/mod.rs` lines 19-28.  The
`method: &dyn Call` reference is not stored here; the encoded call bytes
are instead passed explicitly to the functions below (the only `Call`
implementation in the repository is `ExtrinsicTransferCall`). -/
structure ExtrinsicPayload where
  era : Nat
  nonce : Nat
  tip : Nat
  spec_version : Nat
  transaction_version : Nat
  genesis : List Nat
  block_hash : List Nat

/-- `ExtrinsicPayload::new` (`src/extrinsic/mod.rs` lines 67-81): immortal
era byte `0x00`, tip `0`, spec and transaction versions hardcoded to `1`;
the genesis and head-block hashes come from the chain. -/
def ExtrinsicPayload.new (genesis block_hash : List Nat) (nonce : Nat) :
    ExtrinsicPayload :=
  { era := 0, nonce, tip := 0, spec_version := 1, transaction_version := 1,
    genesis, block_hash }

/-- `ExtrinsicPayload::signature_payload` (`src/extrinsic/mod.rs` lines
87-129), given the bytes `callBytes` produced by `self.method.encode`:
call bytes, era byte, `compact(nonce as u128)`, `compact(0)` (the tip is
compacted from a local `0u128`, not from `self.tip`), the two version
words in LE, the genesis hash, and — for the immortal era — the genesis
hash again as checkpoint.  A non-zero era byte hits `unimplemented!()`,
modelled as `none`.  The `call_size` component of the Rust return value
is `callBytes.length`. -/
def ExtrinsicPayload.signaturePayload (p : ExtrinsicPayload)
    (callBytes : List Nat) : Option (List Nat) :=
  if p.era = 0 then
    some (callBytes ++ p.era ::
      (scale_compact_u128 p.nonce ++ scale_compact_u128 0 ++
       leBytes 4 p.spec_version ++ leBytes 4 p.transaction_version ++
       p.genesis ++ p.genesis))
  else none

/-- Byte sequence assembled by `ExtrinsicPayload::signed_tx`
(`src/extrinsic/mod.rs` lines 152-177) into the output buffer: version
byte `0x84`, the signer public key (the write `signed_tx[1] = 0xFF` of an
address discriminant is commented out in the source), scheme byte `0x01`,
the 64-byte signature, the era byte, `compact(nonce)` (u32 impl),
`compact(self.tip)` (u128 impl), and the packed call copied from the
start of the signature payload. -/
def ExtrinsicPayload.signedTxBytes (p : ExtrinsicPayload)
    (pub sig callBytes : List Nat) : List Nat :=
  0x84 :: (pub ++ 0x01 :: (sig ++ p.era ::
    (scale_compact_u32 p.nonce ++ scale_compact_u128 p.tip ++ callBytes)))

/-- `ExtrinsicPayload::signed_tx` (`src/extrinsic/mod.rs` lines 137-184):
builds the signature payload in the 252-byte buffer (`none` when
`signature_payload` panics on a mortal era), saves the call bytes into the
64-byte `temp_packed_call` (`none` models the `copy_from_slice` panic when
the call exceeds 64 bytes), assembles `signedTxBytes`, and returns its
length — or `0` when the 252-byte buffer is too small. -/
def ExtrinsicPayload.signedTx (p : ExtrinsicPayload)
    (pub sig callBytes : List Nat) : Option Nat :=
  match p.signaturePayload callBytes with
  | none => none
  | some _ =>
    if callBytes.length ≤ 64 then
      let bytes := p.signedTxBytes pub sig callBytes
      if bytes.length < 252 then some bytes.length else some 0
    else none

/-- ASCII code of the lowercase hex digit of a nibble (`hex` crate). -/
def hexChar (n : Nat) : Nat :=
  if n < 10 then 48 + n else 87 + n

/-- Two lowercase-hex ASCII codes of one byte. -/
def hexByte (b : Nat) : List Nat :=
  [hexChar (b / 16 % 16), hexChar (b % 16)]

/-- `hex::encode_to_slice`: lowercase hex ASCII of a byte list. -/
def hexAscii (l : List Nat) : List Nat :=
  (l.map hexByte).flatten

/-- Value of one ASCII hex digit (`hex` crate accepts both cases). -/
def hexVal (c : Nat) : Option Nat :=
  if 48 ≤ c ∧ c ≤ 57 then some (c - 48)
  else if 97 ≤ c ∧ c ≤ 102 then some (c - 87)
  else if 65 ≤ c ∧ c ≤ 70 then some (c - 55)
  else none

/-- `hex::decode_to_slice` into an exactly-half-length buffer: fails on an
odd-length input or a non-hex character. -/
def hexDecode : List Nat → Option (List Nat)
  | [] => some []
  | [_] => none
  | c1 :: c2 :: rest =>
    match hexVal c1, hexVal c2, hexDecode rest with
    | some h, some l, some r => some ((h * 16 + l) :: r)
    | _, _, _ => none

/-- Rust `r.strip_prefix("0x").map_or(r, |v| v)` on ASCII codes. -/
def strip0x (l : List Nat) : List Nat :=
  if l.take 2 = [48, 120] then l.drop 2 else l

/-- Parameter-string assembly inside `Provider::submit_extrinsic`
(`src/lib.rs` lines 212-250), given the `body` of the signed extrinsic
(the first `payload_size` bytes of the 252-byte region of `param_buf`).
The length prefix `compact(len)` is hex-encoded into the header area only
by the `match` arm for a 2-byte compact; other widths leave the header
area as the zero bytes the buffer was initialised with.  When the compact
is 4 bytes or more, `start_idx = 8 - width*2 - 2` underflows `usize` and
the slice panics, modelled as `none`.  The result is the ASCII string
passed as the single positional parameter of `author_submitExtrinsic`. -/
def submitExtrinsicParam (body : List Nat) : Option (List Nat) :=
  let sc := scale_compact_u32 body.length
  let w := sc.length
  if w * 2 + 2 ≤ 8 then
    some (0x30 :: 0x78 ::
      ((if w = 2 then hexAscii sc else List.replicate (w * 2) 0) ++
        hexAscii body))
  else none

/-- Correlation state of `Rpc` (`src/rpc/mod.rs` lines 68-75): only the
`cmd_id` counter is modelled; sockets, websocket state and the two
4096-byte buffers live in the external transport layers. -/
structure Rpc where
  cmd_id : Nat

/-- `Rpc::new` (`src/rpc/mod.rs` lines 112-128): `cmd_id` starts at 1. -/
def Rpc.new : Rpc :=
  { cmd_id := 1 }

/-- The `id` field serialized into the JSON-RPC request by `rpc_method`
(`src/rpc/mod.rs` lines 256-263): the current `cmd_id`. -/
def Rpc.sendId (r : Rpc) : Nat :=
  r.cmd_id

/-- State update of `rpc_method` (`src/rpc/mod.rs` line 265):
`self.cmd_id = self.cmd_id + 1`, performed on every call. -/
def Rpc.step (r : Rpc) : Rpc :=
  { cmd_id := r.cmd_id + 1 }

/-- The id sent by the (k+1)-th `rpc_method` call of a session. -/
def nthSentId (k : Nat) : Nat :=
  (Rpc.step^[k] Rpc.new).sendId

/-- Outcome of `Rpc::rpc_method` on an inbound Text response. -/
inductive RpcOutcome where
  | ok (s : List Nat)
  | responseDoesNotMatch
  | jsonErrorCode (c : Int)
  | jsonErrorParsing
deriving DecidableEq

/-- Response processing of `Rpc::rpc_method` (`src/rpc/mod.rs` lines
270-295) on a received Text payload `raw`.  The two serde parses are
modelled by their outcomes: `parsedRpc` is the result of parsing `raw` as
`JsonRpc<Option<&str>>` (its `id` and optional string `result` fields;
`none` when that parse fails, e.g. when `result` is present but not a
string), and `parsedErr` the result of parsing as `JsonErrorResponse`
(optional `error` object with optional `code`).  When the first parse
fails the source returns `Ok(res)` with the whole response text. -/
def processResponse (sentId : Nat) (raw : List Nat)
    (parsedRpc : Option (Nat × Option (List Nat)))
    (parsedErr : Option (Option (Option Int))) : RpcOutcome :=
  match parsedRpc with
  | some (i, result) =>
    if i = sentId then
      match result with
      | some s => RpcOutcome.ok s
      | none =>
        match parsedErr with
        | some (some (some code)) => RpcOutcome.jsonErrorCode code
        | _ => RpcOutcome.jsonErrorParsing
    else RpcOutcome.responseDoesNotMatch
  | none => RpcOutcome.ok raw

/-- `AccountInfo` (`src/account/mod.rs` lines 14-29), six little-endian
scalar fields laid out over 72 bytes. -/
structure AccountInfo where
  nonce : Nat
  ref_count : Nat
  free : Nat
  reserved : Nat
  misc_frozen : Nat
  free_frozen : Nat
deriving DecidableEq

/-- The `mem::transmute::<[u8; 72], AccountInfo>` of `get_info`
(`src/account/mod.rs` line 134) as explicit little-endian field reads:
nonce at [0,4), ref_count at [4,8), then four u128 balance fields. -/
def AccountInfo.ofBytes (b : List Nat) : AccountInfo :=
  { nonce := leDecode (b.take 4)
  , ref_count := leDecode ((b.drop 4).take 4)
  , free := leDecode ((b.drop 8).take 16)
  , reserved := leDecode ((b.drop 24).take 16)
  , misc_frozen := leDecode ((b.drop 40).take 16)
  , free_frozen := leDecode ((b.drop 56).take 16) }

/-- Errors of `Account::get_info` (`src/account/mod.rs` lines 8-12). -/
inductive AccountError where
  | CannotFetchAccountInfo
  | CannotConvert
deriving DecidableEq

/-- Response handling of `Account::get_info` (`src/account/mod.rs` lines
119-147).  `cache` is `self.info`; `scratch` is the content of the
162-byte `params` buffer when the RPC call returns (ASCII `0x` plus the
hex-encoded 80-byte storage key); `resp` is the `state_getStorage` RPC
outcome (`none` on RPC failure).  On success the source strips `0x`,
hex-decodes into `params[..len/2]` (`none` models the slice panic when
`len/2 > 162`), and — with no length check — transmutes `params[0..72]`
(decoded bytes followed by leftover scratch bytes) into `AccountInfo`,
caching and returning it; a failed decode returns `CannotConvert` leaving
the cache alone; an RPC failure returns the cache when present, else
`CannotFetchAccountInfo`.  The result pairs the new cache with the value
returned. -/
def getInfoStep (cache : Option AccountInfo) (scratch : List Nat)
    (resp : Option (List Nat)) :
    Option (Option AccountInfo × Except AccountError AccountInfo) :=
  match resp with
  | some r =>
    let hex_data := strip0x r
    if hex_data.length / 2 ≤ 162 then
      match hexDecode hex_data with
      | some decoded =>
        let acc := AccountInfo.ofBytes
          ((decoded ++ scratch.drop decoded.length).take 72)
        some (some acc, Except.ok acc)
      | none => some (cache, Except.error AccountError.CannotConvert)
    else none
  | none =>
    match cache with
    | some i => some (cache, Except.ok i)
    | none => some (cache, Except.error AccountError.CannotFetchAccountInfo)

theorem leBytes_length (w n : Nat) : (leBytes w n).length = w := by
  simp [leBytes]

theorem takeWhile_zero_replicate_append (k : Nat) (l : List Nat) :
    k ≤ (List.takeWhile (fun b => b == 0) (List.replicate k 0 ++ l)).length := by
  induction k with
  | zero => exact Nat.zero_le _
  | succ k ih =>
    rw [List.replicate_succ, List.cons_append, List.takeWhile_cons]
    simp

theorem leBytes_sixteen_split (n : Nat) (h : n < 2 ^ 32) :
    leBytes 16 n = leBytes 4 n ++ List.replicate 12 0 := by
  have hr : List.range 16 = List.range 4 ++ (List.range 12).map (fun i => 4 + i) := by
    decide
  have hz : ((List.range 12).map fun i => n / 256 ^ (4 + i) % 256) =
      List.replicate 12 0 := by
    refine List.eq_replicate_iff.mpr ⟨by simp, ?_⟩
    intro b hb
    rcases List.mem_map.mp hb with ⟨i, _, rfl⟩
    have hle : 2 ^ 32 ≤ 256 ^ (4 + i) := by
      calc (2 : Nat) ^ 32 = 256 ^ 4 := by norm_num
        _ ≤ 256 ^ (4 + i) := Nat.pow_le_pow_right (by norm_num) (by omega)
    have : n / 256 ^ (4 + i) = 0 := Nat.div_eq_of_lt (lt_of_lt_of_le h hle)
    simp [this]
  calc leBytes 16 n
      = (List.range 4).map (fun i => n / 256 ^ i % 256) ++
        ((List.range 12).map fun i => n / 256 ^ (4 + i) % 256) := by
        rw [leBytes, hr, List.map_append, List.map_map]; rfl
    _ = leBytes 4 n ++ List.replicate 12 0 := by rw [hz]; rfl

theorem trailingZeroCount_ge_twelve (n : Nat) (h : n < 2 ^ 32) :
    12 ≤ trailingZeroCount (leBytes 16 n) := by
  rw [trailingZeroCount, leBytes_sixteen_split n h, List.reverse_append,
    List.reverse_replicate]
  exact takeWhile_zero_replicate_append 12 _

theorem scale_compact_u128_big_length_le (n : Nat) :
    (scale_compact_u128_big n).length ≤ 17 := by
  have := List.length_take_le (16 - trailingZeroCount (leBytes 16 n)) (leBytes 16 n)
  simp only [scale_compact_u128_big, List.length_cons, leBytes_length] at *
  omega

theorem scale_compact_u128_big_length_le_five (n : Nat) (h : n < 2 ^ 32) :
    (scale_compact_u128_big n).length ≤ 5 := by
  have htz := trailingZeroCount_ge_twelve n h
  simp only [scale_compact_u128_big, List.length_cons, List.length_take,
    leBytes_length]
  omega

theorem scale_compact_u128_big_length_pos (n : Nat) :
    1 ≤ (scale_compact_u128_big n).length := by
  simp [scale_compact_u128_big]

theorem scale_compact_u32_length_le (n : Nat) :
    (scale_compact_u32 n).length ≤ 17 := by
  rw [scale_compact_u32]
  split
  · simp
  · split
    · simp [leBytes_length]
    · split
      · simp [leBytes_length]
      · exact scale_compact_u128_big_length_le n

theorem scale_compact_u32_length_le_five (n : Nat) (h : n < 2 ^ 32) :
    (scale_compact_u32 n).length ≤ 5 := by
  rw [scale_compact_u32]
  split
  · simp
  · split
    · simp [leBytes_length]
    · split
      · simp [leBytes_length]
      · exact scale_compact_u128_big_length_le_five n h

theorem scale_compact_u32_length_pos (n : Nat) :
    1 ≤ (scale_compact_u32 n).length := by
  rw [scale_compact_u32]
  split
  · simp
  · split
    · simp [leBytes_length]
    · split
      · simp [leBytes_length]
      · exact scale_compact_u128_big_length_pos n

theorem scale_compact_u128_length_le (n : Nat) :
    (scale_compact_u128 n).length ≤ 17 := by
  rw [scale_compact_u128]
  split
  · exact scale_compact_u32_length_le n
  · exact scale_compact_u128_big_length_le n

theorem scale_compact_u128_length_pos (n : Nat) :
    1 ≤ (scale_compact_u128 n).length := by
  rw [scale_compact_u128]
  split
  · exact scale_compact_u32_length_pos n
  · exact scale_compact_u128_big_length_pos n

theorem transfer_encode_eq (dest : List Nat) (amount : Nat) :
    (ExtrinsicTransferCall.new dest amount).encode =
      5 :: 0 :: (dest ++ scale_compact_u128 amount) := by
  rfl

theorem transfer_encode_length (dest : List Nat) (amount : Nat)
    (h : dest.length = 32) :
    (ExtrinsicTransferCall.new dest amount).encode.length =
      34 + (scale_compact_u128 amount).length := by
  simp [transfer_encode_eq, h]
  omega

theorem signedTxBytes_length (p : ExtrinsicPayload) (pub sig callBytes : List Nat) :
    (p.signedTxBytes pub sig callBytes).length =
      3 + pub.length + sig.length + (scale_compact_u32 p.nonce).length +
        (scale_compact_u128 p.tip).length + callBytes.length := by
  simp [ExtrinsicPayload.signedTxBytes]
  omega

-- Vectors from the repository test suite (src/scale/tests.rs).
example : scale_compact_u32 0 = [0x00] := by decide
example : scale_compact_u32 1 = [0x04] := by decide
example : scale_compact_u32 63 = [0xFC] := by decide
example : scale_compact_u32 64 = [0x01, 0x01] := by decide
example : scale_compact_u32 1536 = [0x01, 0x18] := by decide
example : scale_compact_u32 2147483648 = [0x03, 0x00, 0x00, 0x00, 0x80] := by decide
example : scale_compact_u128 123456789 = [0x56, 0x34, 0x6F, 0x1D] := by decide
example : (scale_compact_u32 123456).length = 4 := by decide
example : (scale_compact_u32 16384).length = 4 := by decide

/-- C3: the source branch predicates are `n < 2^14 - 1` and `n < 2^30 - 1`,
off by one from the strict powers of two the claim (and the SCALE spec)
prescribe.  At the boundary n = 16383 = 2^14 - 1 the code emits the
four-byte form `[0xFE, 0xFF, 0x00, 0x00]`, not the claimed two-byte
`[0xFD, 0xFF]`; at n = 2^30 - 1 it emits the five-byte big-integer form
rather than the claimed four-byte form.  One value below each boundary the
code agrees with the claim. -/
theorem scale_compact_boundary_code_eval :
    scale_compact_u32 16383 = [0xFE, 0xFF, 0x00, 0x00] ∧
      scale_compact_u32 16383 ≠ [0xFD, 0xFF] ∧
      scale_compact_u32 (2 ^ 30 - 1) =
        [0x03, 0xFF, 0xFF, 0xFF, 0x3F] ∧
      scale_compact_u32 (2 ^ 30 - 1) ≠
        leBytes 4 (((2 ^ 30 - 1) * 4 + 2) % 2 ^ 32) ∧
      scale_compact_u32 16382 = [0xF9, 0xFF] := by
  decide

/-- C7: below 2^30 the u128 and u32 implementations of scale_compact
write identical bytes and return identical counts.  For n < 2^30 - 1 the
u128 impl delegates to the u32 impl outright; at the boundary value
n = 2^30 - 1 both take the big-integer branch and agree. -/
theorem scale_compact_agree_below_thirty (n : Nat) (h : n < 2 ^ 30) :
    scale_compact_u128 n = scale_compact_u32 n := by
  by_cases h1 : n < 2 ^ 30 - 1
  · rw [scale_compact_u128, if_pos h1]
  · have hn : n = 2 ^ 30 - 1 := by omega
    subst hn
    decide

/-- Witness for C7 at the boundary value 2^30 - 1. -/
theorem scale_compact_agree_below_thirty_witness :
    2 ^ 30 - 1 < 2 ^ 30 ∧
      scale_compact_u128 (2 ^ 30 - 1) = scale_compact_u32 (2 ^ 30 - 1) :=
  ⟨by decide, scale_compact_agree_below_thirty (2 ^ 30 - 1) (by decide)⟩

/-- C1 counterexample: with dest the 32 zero bytes and amount 0, the
encoded call is `[5, 0] ++ dest ++ [0]` (35 bytes, third byte `dest[0]`),
not the claimed `[5, 0, 0xFF] ++ dest ++ [0]`: the source line
`payload[2] = 0xff` writing the MultiAddress discriminant is commented
out. -/
theorem transfer_encode_counterexample :
    (ExtrinsicTransferCall.new (List.replicate 32 0) 0).encode ≠
      5 :: 0 :: 0xFF :: (List.replicate 32 0 ++ scale_compact_u128 0) := by
  decide

/-- C1 amended: for every 32-byte dest and u128 amount, encode writes
exactly `[0x05, 0x00] ++ dest ++ compact(amount)` — with no MultiAddress
discriminant byte before dest — and returns that total length,
`34 + |compact(amount)|`. -/
theorem transfer_encode_bytes (dest : List Nat) (amount : Nat)
    (hdest : dest.length = 32) (_hamount : amount < 2 ^ 128) :
    (ExtrinsicTransferCall.new dest amount).encode =
        5 :: 0 :: (dest ++ scale_compact_u128 amount) ∧
      (ExtrinsicTransferCall.new dest amount).encode.length =
        34 + (scale_compact_u128 amount).length :=
  ⟨transfer_encode_eq dest amount, transfer_encode_length dest amount hdest⟩

/-- Witness for the amended C1 at a concrete destination and amount. -/
theorem transfer_encode_bytes_witness :
    (List.replicate 32 7).length = 32 ∧ 64 < 2 ^ 128 ∧
      ((ExtrinsicTransferCall.new (List.replicate 32 7) 64).encode =
          5 :: 0 :: (List.replicate 32 7 ++ scale_compact_u128 64) ∧
        (ExtrinsicTransferCall.new (List.replicate 32 7) 64).encode.length =
          34 + (scale_compact_u128 64).length) :=
  ⟨by decide, by norm_num,
    transfer_encode_bytes (List.replicate 32 7) 64 (by decide) (by norm_num)⟩

theorem signaturePayload_immortal (p : ExtrinsicPayload) (callBytes : List Nat)
    (hera : p.era = 0) :
    p.signaturePayload callBytes =
      some (callBytes ++ p.era ::
        (scale_compact_u128 p.nonce ++ scale_compact_u128 0 ++
         leBytes 4 p.spec_version ++ leBytes 4 p.transaction_version ++
         p.genesis ++ p.genesis)) := by
  simp only [ExtrinsicPayload.signaturePayload, if_pos hera]

theorem signedTx_of_fits (p : ExtrinsicPayload) (pub sig callBytes : List Nat)
    (hera : p.era = 0) (hc : callBytes.length ≤ 64)
    (hb : (p.signedTxBytes pub sig callBytes).length < 252) :
    p.signedTx pub sig callBytes =
      some (p.signedTxBytes pub sig callBytes).length := by
  simp only [ExtrinsicPayload.signedTx, signaturePayload_immortal p callBytes hera]
  rw [if_pos hc, if_pos hb]

theorem transfer_signedTxBytes_length_bounds
    (genesis block_hash pub sig dest : List Nat) (nonce amount : Nat)
    (hpub : pub.length = 32) (hsig : sig.length = 64)
    (hdest : dest.length = 32) (hnonce : nonce < 2 ^ 32) :
    136 ≤ ((ExtrinsicPayload.new genesis block_hash nonce).signedTxBytes pub sig
        (ExtrinsicTransferCall.new dest amount).encode).length ∧
      ((ExtrinsicPayload.new genesis block_hash nonce).signedTxBytes pub sig
        (ExtrinsicTransferCall.new dest amount).encode).length ≤ 156 := by
  have hlen := signedTxBytes_length (ExtrinsicPayload.new genesis block_hash nonce)
    pub sig (ExtrinsicTransferCall.new dest amount).encode
  have hn : (ExtrinsicPayload.new genesis block_hash nonce).nonce = nonce := rfl
  have ht : (ExtrinsicPayload.new genesis block_hash nonce).tip = 0 := rfl
  rw [hn, ht, hpub, hsig] at hlen
  have h0 : (scale_compact_u128 0).length = 1 := by decide
  have hc := transfer_encode_length dest amount hdest
  have hca1 := scale_compact_u128_length_le amount
  have hca2 := scale_compact_u128_length_pos amount
  have hcn1 := scale_compact_u32_length_le_five nonce hnonce
  have hcn2 := scale_compact_u32_length_pos nonce
  omega

theorem scale_compact_u32_two_bytes (m : Nat) (h1 : 64 ≤ m) (h2 : m < 2 ^ 14 - 1) :
    scale_compact_u32 m = leBytes 2 ((m * 4 + 1) % 2 ^ 16) := by
  rw [scale_compact_u32, if_neg (by omega), if_pos h2]

theorem hexAscii_append (a b : List Nat) :
    hexAscii (a ++ b) = hexAscii a ++ hexAscii b := by
  simp [hexAscii]

/-- C2: for every transfer-call extrinsic payload (immortal era, tip 0,
arbitrary u32 nonce) and signer, signed_tx writes exactly
`0x84 ++ pub ++ 0x01 ++ sig ++ 0x00 ++ compact(nonce) ++ compact(0) ++
call bytes` — with no MultiAddress discriminant byte before the public
key — returns that total length, and the call bytes are exactly the
sequence at the start of the signing payload. -/
theorem signed_tx_layout (genesis block_hash pub sig dest : List Nat)
    (nonce amount : Nat) (hpub : pub.length = 32) (hsig : sig.length = 64)
    (hdest : dest.length = 32) (hnonce : nonce < 2 ^ 32)
    (_hamount : amount < 2 ^ 128) :
    (ExtrinsicPayload.new genesis block_hash nonce).signedTxBytes pub sig
        (ExtrinsicTransferCall.new dest amount).encode =
      0x84 :: (pub ++ 0x01 :: (sig ++ 0x00 ::
        (scale_compact_u32 nonce ++ scale_compact_u128 0 ++
          (ExtrinsicTransferCall.new dest amount).encode))) ∧
    (ExtrinsicPayload.new genesis block_hash nonce).signedTx pub sig
        (ExtrinsicTransferCall.new dest amount).encode =
      some ((ExtrinsicPayload.new genesis block_hash nonce).signedTxBytes pub sig
        (ExtrinsicTransferCall.new dest amount).encode).length ∧
    (∃ rest,
      (ExtrinsicPayload.new genesis block_hash nonce).signaturePayload
        (ExtrinsicTransferCall.new dest amount).encode =
      some ((ExtrinsicTransferCall.new dest amount).encode ++ rest)) := by
  refine ⟨rfl, ?_, ⟨_, signaturePayload_immortal _ _ rfl⟩⟩
  apply signedTx_of_fits _ _ _ _ rfl
  · rw [transfer_encode_length dest amount hdest]
    have := scale_compact_u128_length_le amount
    omega
  · have h := (transfer_signedTxBytes_length_bounds genesis block_hash pub sig
      dest nonce amount hpub hsig hdest hnonce).2
    omega

/-- Witness for C2 at concrete keys, nonce 7 and amount 2921503981796281. -/
theorem signed_tx_layout_witness :
    (List.replicate 32 1).length = 32 ∧ (List.replicate 64 2).length = 64 ∧
    (List.replicate 32 9).length = 32 ∧ 7 < 2 ^ 32 ∧
    2921503981796281 < 2 ^ 128 ∧
    ((ExtrinsicPayload.new (List.replicate 32 3) (List.replicate 32 4) 7).signedTxBytes
        (List.replicate 32 1) (List.replicate 64 2)
        (ExtrinsicTransferCall.new (List.replicate 32 9) 2921503981796281).encode =
      0x84 :: (List.replicate 32 1 ++ 0x01 :: (List.replicate 64 2 ++ 0x00 ::
        (scale_compact_u32 7 ++ scale_compact_u128 0 ++
          (ExtrinsicTransferCall.new (List.replicate 32 9) 2921503981796281).encode))) ∧
    (ExtrinsicPayload.new (List.replicate 32 3) (List.replicate 32 4) 7).signedTx
        (List.replicate 32 1) (List.replicate 64 2)
        (ExtrinsicTransferCall.new (List.replicate 32 9) 2921503981796281).encode =
      some ((ExtrinsicPayload.new (List.replicate 32 3) (List.replicate 32 4) 7).signedTxBytes
        (List.replicate 32 1) (List.replicate 64 2)
        (ExtrinsicTransferCall.new (List.replicate 32 9) 2921503981796281).encode).length ∧
    (∃ rest,
      (ExtrinsicPayload.new (List.replicate 32 3) (List.replicate 32 4) 7).signaturePayload
        (ExtrinsicTransferCall.new (List.replicate 32 9) 2921503981796281).encode =
      some ((ExtrinsicTransferCall.new (List.replicate 32 9) 2921503981796281).encode ++ rest))) :=
  ⟨by decide, by decide, by decide, by norm_num, by norm_num,
    signed_tx_layout (List.replicate 32 3) (List.replicate 32 4)
      (List.replicate 32 1) (List.replicate 64 2) (List.replicate 32 9)
      7 2921503981796281 (by decide) (by decide) (by decide)
      (by norm_num) (by norm_num)⟩

/-- C10: for every transfer call (any 32-byte destination, any u128
amount) and every u32 nonce, signed_tx stays within its buffers: the
encoded call is at most 51 bytes (fitting the 64-byte temp_packed_call
buffer), the signing payload fits the 252-byte output buffer, the
assembled extrinsic is at most 156 bytes, and signed_tx returns a
non-zero length — the 0 buffer-too-small branch is unreachable. -/
theorem signed_tx_buffer_safe (genesis block_hash pub sig dest : List Nat)
    (nonce amount : Nat) (hpub : pub.length = 32) (hsig : sig.length = 64)
    (hdest : dest.length = 32) (hgen : genesis.length = 32)
    (hnonce : nonce < 2 ^ 32) (_hamount : amount < 2 ^ 128) :
    (ExtrinsicTransferCall.new dest amount).encode.length ≤ 51 ∧
    (ExtrinsicTransferCall.new dest amount).encode.length ≤ 64 ∧
    (∃ pl, (ExtrinsicPayload.new genesis block_hash nonce).signaturePayload
        (ExtrinsicTransferCall.new dest amount).encode = some pl ∧
        pl.length ≤ 252) ∧
    ((ExtrinsicPayload.new genesis block_hash nonce).signedTxBytes pub sig
        (ExtrinsicTransferCall.new dest amount).encode).length ≤ 156 ∧
    (∃ len, (ExtrinsicPayload.new genesis block_hash nonce).signedTx pub sig
        (ExtrinsicTransferCall.new dest amount).encode = some len ∧
        0 < len) := by
  have hc := transfer_encode_length dest amount hdest
  have hca1 := scale_compact_u128_length_le amount
  have hcn128 := scale_compact_u128_length_le nonce
  have hbounds := transfer_signedTxBytes_length_bounds genesis block_hash pub sig
    dest nonce amount hpub hsig hdest hnonce
  refine ⟨by omega, by omega, ?_, hbounds.2, ?_⟩
  · refine ⟨_, signaturePayload_immortal _ _ rfl, ?_⟩
    have hn : (ExtrinsicPayload.new genesis block_hash nonce).nonce = nonce := rfl
    have hsv : (ExtrinsicPayload.new genesis block_hash nonce).spec_version = 1 := rfl
    have htv : (ExtrinsicPayload.new genesis block_hash nonce).transaction_version = 1 := rfl
    have hge : (ExtrinsicPayload.new genesis block_hash nonce).genesis = genesis := rfl
    simp only [List.length_append, List.length_cons, leBytes_length, hn, hsv,
      htv, hge, hgen]
    have h0 : (scale_compact_u128 0).length = 1 := by decide
    omega
  · refine ⟨_, signedTx_of_fits _ pub sig _ rfl (by omega) (by omega), ?_⟩
    omega

/-- Witness for C10 at concrete hashes, keys, nonce 7 and a large
amount. -/
theorem signed_tx_buffer_safe_witness :
    (List.replicate 32 1).length = 32 ∧ (List.replicate 64 2).length = 64 ∧
    (List.replicate 32 9).length = 32 ∧ (List.replicate 32 3).length = 32 ∧
    7 < 2 ^ 32 ∧ 2921503981796281 < 2 ^ 128 ∧
    ((ExtrinsicTransferCall.new (List.replicate 32 9) 2921503981796281).encode.length ≤ 51 ∧
    (ExtrinsicTransferCall.new (List.replicate 32 9) 2921503981796281).encode.length ≤ 64 ∧
    (∃ pl, (ExtrinsicPayload.new (List.replicate 32 3) (List.replicate 32 4) 7).signaturePayload
        (ExtrinsicTransferCall.new (List.replicate 32 9) 2921503981796281).encode = some pl ∧
        pl.length ≤ 252) ∧
    ((ExtrinsicPayload.new (List.replicate 32 3) (List.replicate 32 4) 7).signedTxBytes
        (List.replicate 32 1) (List.replicate 64 2)
        (ExtrinsicTransferCall.new (List.replicate 32 9) 2921503981796281).encode).length ≤ 156 ∧
    (∃ len, (ExtrinsicPayload.new (List.replicate 32 3) (List.replicate 32 4) 7).signedTx
        (List.replicate 32 1) (List.replicate 64 2)
        (ExtrinsicTransferCall.new (List.replicate 32 9) 2921503981796281).encode = some len ∧
        0 < len)) :=
  ⟨by decide, by decide, by decide, by decide, by norm_num, by norm_num,
    signed_tx_buffer_safe (List.replicate 32 3) (List.replicate 32 4)
      (List.replicate 32 1) (List.replicate 64 2) (List.replicate 32 9)
      7 2921503981796281 (by decide) (by decide) (by decide) (by decide)
      (by norm_num) (by norm_num)⟩

/-- C8: for every transfer-call extrinsic body produced by signed_tx into
the 252-byte buffer (its length is always non-zero), the parameter passed
to author_submitExtrinsic is exactly the ASCII string
`0x ++ hex(compact(len) ++ body)`: the produced lengths all lie in
[136, 156], so compact(len) is the two-byte form handled by the header
match arm. -/
theorem submit_extrinsic_param_format
    (genesis block_hash pub sig dest : List Nat) (nonce amount : Nat)
    (hpub : pub.length = 32) (hsig : sig.length = 64)
    (hdest : dest.length = 32) (hnonce : nonce < 2 ^ 32)
    (_hamount : amount < 2 ^ 128) :
    (ExtrinsicPayload.new genesis block_hash nonce).signedTx pub sig
        (ExtrinsicTransferCall.new dest amount).encode =
      some ((ExtrinsicPayload.new genesis block_hash nonce).signedTxBytes pub sig
        (ExtrinsicTransferCall.new dest amount).encode).length ∧
    ((ExtrinsicPayload.new genesis block_hash nonce).signedTxBytes pub sig
        (ExtrinsicTransferCall.new dest amount).encode).length ≠ 0 ∧
    submitExtrinsicParam
        ((ExtrinsicPayload.new genesis block_hash nonce).signedTxBytes pub sig
          (ExtrinsicTransferCall.new dest amount).encode) =
      some (0x30 :: 0x78 ::
        hexAscii (scale_compact_u32
            ((ExtrinsicPayload.new genesis block_hash nonce).signedTxBytes pub sig
              (ExtrinsicTransferCall.new dest amount).encode).length ++
          (ExtrinsicPayload.new genesis block_hash nonce).signedTxBytes pub sig
            (ExtrinsicTransferCall.new dest amount).encode)) := by
  have hc := transfer_encode_length dest amount hdest
  have hca1 := scale_compact_u128_length_le amount
  have hbounds := transfer_signedTxBytes_length_bounds genesis block_hash pub sig
    dest nonce amount hpub hsig hdest hnonce
  refine ⟨signedTx_of_fits _ pub sig _ rfl (by omega) (by omega), by omega, ?_⟩
  have hw : (scale_compact_u32
      ((ExtrinsicPayload.new genesis block_hash nonce).signedTxBytes pub sig
        (ExtrinsicTransferCall.new dest amount).encode).length).length = 2 := by
    rw [scale_compact_u32_two_bytes _ (by omega) (by omega)]
    exact leBytes_length 2 _
  rw [submitExtrinsicParam, hexAscii_append]
  rw [hw]
  norm_num

/-- Witness for C8 at concrete hashes, keys, nonce 5 and amount 10. -/
theorem submit_extrinsic_param_format_witness :
    (List.replicate 32 1).length = 32 ∧ (List.replicate 64 2).length = 64 ∧
    (List.replicate 32 9).length = 32 ∧ 5 < 2 ^ 32 ∧ 10 < 2 ^ 128 ∧
    ((ExtrinsicPayload.new (List.replicate 32 3) (List.replicate 32 4) 5).signedTx
        (List.replicate 32 1) (List.replicate 64 2)
        (ExtrinsicTransferCall.new (List.replicate 32 9) 10).encode =
      some ((ExtrinsicPayload.new (List.replicate 32 3) (List.replicate 32 4) 5).signedTxBytes
        (List.replicate 32 1) (List.replicate 64 2)
        (ExtrinsicTransferCall.new (List.replicate 32 9) 10).encode).length ∧
    ((ExtrinsicPayload.new (List.replicate 32 3) (List.replicate 32 4) 5).signedTxBytes
        (List.replicate 32 1) (List.replicate 64 2)
        (ExtrinsicTransferCall.new (List.replicate 32 9) 10).encode).length ≠ 0 ∧
    submitExtrinsicParam
        ((ExtrinsicPayload.new (List.replicate 32 3) (List.replicate 32 4) 5).signedTxBytes
          (List.replicate 32 1) (List.replicate 64 2)
          (ExtrinsicTransferCall.new (List.replicate 32 9) 10).encode) =
      some (0x30 :: 0x78 ::
        hexAscii (scale_compact_u32
            ((ExtrinsicPayload.new (List.replicate 32 3) (List.replicate 32 4) 5).signedTxBytes
              (List.replicate 32 1) (List.replicate 64 2)
              (ExtrinsicTransferCall.new (List.replicate 32 9) 10).encode).length ++
          (ExtrinsicPayload.new (List.replicate 32 3) (List.replicate 32 4) 5).signedTxBytes
            (List.replicate 32 1) (List.replicate 64 2)
            (ExtrinsicTransferCall.new (List.replicate 32 9) 10).encode))) :=
  ⟨by decide, by decide, by decide, by norm_num, by norm_num,
    submit_extrinsic_param_format (List.replicate 32 3) (List.replicate 32 4)
      (List.replicate 32 1) (List.replicate 64 2) (List.replicate 32 9)
      5 10 (by decide) (by decide) (by decide) (by norm_num) (by norm_num)⟩

/-- C9: the session id counter starts at 1, each rpc_method call sends the
current cmd_id and then increments it by exactly one, so the ids sent over
the lifetime of a session are strictly increasing. -/
theorem cmd_id_monotonic :
    Rpc.new.cmd_id = 1 ∧
    (∀ r : Rpc, Rpc.sendId r = r.cmd_id ∧ (Rpc.step r).cmd_id = r.cmd_id + 1) ∧
    (∀ i j : Nat, i < j → nthSentId i < nthSentId j) := by
  have key : ∀ k, nthSentId k = k + 1 := by
    intro k
    induction k with
    | zero => rfl
    | succ k ih =>
      rw [nthSentId, Function.iterate_succ_apply'] at *
      simp only [Rpc.sendId, Rpc.step] at *
      omega
  exact ⟨rfl, fun r => ⟨rfl, rfl⟩, fun i j hij => by rw [key, key]; omega⟩

/-- Witness for C9: the first two calls of a session send ids 1 and 2. -/
theorem cmd_id_monotonic_witness :
    Rpc.new.cmd_id = 1 ∧
    (Rpc.sendId Rpc.new = Rpc.new.cmd_id ∧
      (Rpc.step Rpc.new).cmd_id = Rpc.new.cmd_id + 1) ∧
    (0 < 1 ∧ nthSentId 0 < nthSentId 1) :=
  ⟨cmd_id_monotonic.1, cmd_id_monotonic.2.1 Rpc.new,
    Nat.zero_lt_one, cmd_id_monotonic.2.2 0 1 Nat.zero_lt_one⟩

/-- C5 counterexample: when the inbound Text payload does not parse as a
JsonRpc object at all (first serde parse fails, e.g. because the result
field is present but not a string), rpc_method returns Ok with the whole
response text — here the raw bytes [104, 105] — although no result field
was extracted and no id was matched; the claim requires an error in this
case and allows no other Ok value. -/
theorem rpc_method_ok_counterexample :
    processResponse 1 [104, 105] none none = RpcOutcome.ok [104, 105] := by
  rfl

/-- C5 amended: on a parsed JsonRpc response the claimed dichotomy holds —
Ok(result) exactly when the id matches and the result string is present,
ResponseDoesNotMatch on id mismatch, Json(ErrorCode(code)) when the id
matches, the result is absent and the error parse yields a code,
Json(ErrorParsing) otherwise — but when the response does not parse as a
JsonRpc object, rpc_method returns Ok with the entire response text. -/
theorem rpc_method_outcomes (sid i : Nat) (raw s : List Nat)
    (r : Option (List Nat)) (perr : Option (Option (Option Int))) (c : Int) :
    (processResponse sid raw (some (sid, some s)) perr = RpcOutcome.ok s) ∧
    (i ≠ sid → processResponse sid raw (some (i, r)) perr =
      RpcOutcome.responseDoesNotMatch) ∧
    (processResponse sid raw (some (sid, none)) (some (some (some c))) =
      RpcOutcome.jsonErrorCode c) ∧
    (processResponse sid raw (some (sid, none)) none =
      RpcOutcome.jsonErrorParsing) ∧
    (processResponse sid raw (some (sid, none)) (some none) =
      RpcOutcome.jsonErrorParsing) ∧
    (processResponse sid raw (some (sid, none)) (some (some none)) =
      RpcOutcome.jsonErrorParsing) ∧
    (processResponse sid raw none perr = RpcOutcome.ok raw) := by
  refine ⟨?_, ?_, ?_, ?_, ?_, ?_, rfl⟩
  · simp [processResponse]
  · intro h
    simp [processResponse, h]
  · simp [processResponse]
  · simp [processResponse]
  · simp [processResponse]
  · simp [processResponse]

/-- Witness for C5 (amended) at concrete ids and payloads. -/
theorem rpc_method_outcomes_witness :
    (processResponse 3 [123] (some (3, some [34, 104, 34])) none =
      RpcOutcome.ok [34, 104, 34]) ∧
    (2 ≠ 3 ∧ processResponse 3 [123] (some (2, none)) none =
      RpcOutcome.responseDoesNotMatch) ∧
    (processResponse 3 [123] (some (3, none)) (some (some (some (-32600)))) =
      RpcOutcome.jsonErrorCode (-32600)) ∧
    (processResponse 3 [123] (some (3, none)) none =
      RpcOutcome.jsonErrorParsing) ∧
    (processResponse 3 [123] none none = RpcOutcome.ok [123]) :=
  ⟨(rpc_method_outcomes 3 2 [123] [34, 104, 34] none none (-32600)).1,
    ⟨by decide,
      (rpc_method_outcomes 3 2 [123] [34, 104, 34] none none (-32600)).2.1
        (by decide)⟩,
    (rpc_method_outcomes 3 2 [123] [34, 104, 34] none none (-32600)).2.2.1,
    (rpc_method_outcomes 3 2 [123] [34, 104, 34] none none (-32600)).2.2.2.1,
    (rpc_method_outcomes 3 2 [123] [34, 104, 34] none none (-32600)).2.2.2.2.2.2⟩

/-- C4: get_info performs no 72-byte length check.  With an empty cache
and a successful RPC response `0xff` — which hex-decodes to the single
byte 255, not 72 bytes — the code still reinterprets the first 72 bytes of
its scratch buffer (the decoded byte followed by leftover ASCII of the
request hex string) as an AccountInfo, returns it as Ok, and installs it
in the cache; the claim requires a parse error with no cache update. -/
theorem get_info_no_length_check_eval :
    hexDecode (strip0x [48, 120, 102, 102]) = some [255] ∧
    getInfoStep none (48 :: 120 :: List.replicate 160 48)
        (some [48, 120, 102, 102]) =
      some (some (AccountInfo.ofBytes (255 :: 120 :: List.replicate 70 48)),
        Except.ok (AccountInfo.ofBytes (255 :: 120 :: List.replicate 70 48))) :=
  ⟨rfl, rfl⟩

set_option maxRecDepth 4000 in
/-- C6 counterexample: a successful RPC response of 400 non-hex
characters cannot be hex-decoded, yet get_info does not return
CannotConvert there: since 400/2 = 200 exceeds the 162-byte params
buffer, the slice `params[..hex_data.len()/2]` taken before the decode
panics (modelled as `none`), so the original claim's unconditional
parse-error clause is false at this input. -/
theorem get_info_oversized_counterexample :
    getInfoStep none (48 :: 120 :: List.replicate 160 48)
        (some (List.replicate 400 103)) = none ∧
      getInfoStep none (48 :: 120 :: List.replicate 160 48)
          (some (List.replicate 400 103)) ≠
        some (none, Except.error AccountError.CannotConvert) :=
  ⟨rfl, by intro h; rw [show getInfoStep none (48 :: 120 :: List.replicate 160 48)
      (some (List.replicate 400 103)) = none from rfl] at h; exact Option.noConfusion h⟩

/-- C6 amended: on RPC failure get_info returns the cached AccountInfo
when one exists and CannotFetchAccountInfo when none does; when the RPC
request succeeds and the stripped payload fits the decode slice of the
162-byte scratch buffer (at most 324 hex characters — beyond that the
code panics instead of returning) but cannot be hex-decoded, it returns
CannotConvert and leaves the cache alone; and every Ok return leaves the
cache equal to the returned value. -/
theorem get_info_cache_policy (cache : Option AccountInfo)
    (scratch r : List Nat) (i : AccountInfo) :
    (getInfoStep none scratch none =
      some (none, Except.error AccountError.CannotFetchAccountInfo)) ∧
    (getInfoStep (some i) scratch none = some (some i, Except.ok i)) ∧
    ((strip0x r).length / 2 ≤ 162 → hexDecode (strip0x r) = none →
      getInfoStep cache scratch (some r) =
        some (cache, Except.error AccountError.CannotConvert)) ∧
    (∀ resp c a, getInfoStep cache scratch resp = some (c, Except.ok a) →
      c = some a) := by
  refine ⟨rfl, rfl, ?_, ?_⟩
  · intro h1 h2
    simp [getInfoStep, h1, h2]
  · intro resp c a h
    cases resp with
    | none =>
      cases cache with
      | none => simp [getInfoStep] at h
      | some j =>
        simp [getInfoStep] at h
        rcases h with ⟨hc, ha⟩
        rw [← hc, ha]
    | some rr =>
      simp only [getInfoStep] at h
      by_cases hg : (strip0x rr).length / 2 ≤ 162
      · rw [if_pos hg] at h
        cases hd : hexDecode (strip0x rr) with
        | none =>
          rw [hd] at h
          simp at h
        | some d =>
          rw [hd] at h
          simp at h
          rcases h with ⟨hc, ha⟩
          rw [← hc, ← ha]
      · rw [if_neg hg] at h
        simp at h

set_option maxRecDepth 4000 in
/-- Witness for C6: concrete cache states, an undecodable response
(a single non-hex character) and a well-formed 72-byte response. -/
theorem get_info_cache_policy_witness :
    (getInfoStep none (48 :: 120 :: List.replicate 160 48) none =
      some (none, Except.error AccountError.CannotFetchAccountInfo)) ∧
    (getInfoStep (some (AccountInfo.ofBytes []))
        (48 :: 120 :: List.replicate 160 48) none =
      some (some (AccountInfo.ofBytes []), Except.ok (AccountInfo.ofBytes []))) ∧
    (getInfoStep none (48 :: 120 :: List.replicate 160 48) (some [103]) =
      some (none, Except.error AccountError.CannotConvert)) ∧
    ((some (AccountInfo.ofBytes (List.replicate 72 0)) : Option AccountInfo) =
      some (AccountInfo.ofBytes (List.replicate 72 0))) :=
  ⟨(get_info_cache_policy none (48 :: 120 :: List.replicate 160 48) [103]
      (AccountInfo.ofBytes [])).1,
   (get_info_cache_policy none (48 :: 120 :: List.replicate 160 48) [103]
      (AccountInfo.ofBytes [])).2.1,
   (get_info_cache_policy none (48 :: 120 :: List.replicate 160 48) [103]
      (AccountInfo.ofBytes [])).2.2.1 (by decide) (by decide),
   (get_info_cache_policy none (48 :: 120 :: List.replicate 160 48) [103]
      (AccountInfo.ofBytes [])).2.2.2
     (some (48 :: 120 :: List.replicate 144 48))
     (some (AccountInfo.ofBytes (List.replicate 72 0)))
     (AccountInfo.ofBytes (List.replicate 72 0)) (by rfl)⟩
